import Mathlib

/-!
Verification of the Chatbot-AppLab backend (src/backend/API.py) against its
natural-language specification.  Python strings are embedded as `List Char`;
the external collaborators (werkzeug's secure_filename, the vector store's query,
the Gemini generation call, the PDF reader and the OCR engine) are parameters
of the embedded endpoint functions, matching their role as external services.
-/

namespace ChatbotAppLab

/-- A fixed proof that the default overlap (200) is smaller than the default
chunk size (1000); the Python loop in chunk_text terminates only under this
condition, so the embedding carries it as an argument. -/
def ovLt : (200 : Nat) < 1000 := by norm_num

/-- The while-loop of `chunk_text` (API.py lines 109-113): starting at `start`,
emit the slice `text[start : start+chunkSize]` and advance by
`chunkSize - overlap` while `start < len(text)`. -/
def chunkLoop (text : List Char) (chunkSize overlap : Nat)
    (hov : overlap < chunkSize) (start : Nat) : List (List Char) :=
  if _hlt : start < text.length then
    ((text.drop start).take chunkSize)
      :: chunkLoop text chunkSize overlap hov (start + (chunkSize - overlap))
  else
    []
termination_by text.length - start
decreasing_by
  simp_wf
  omega

/-- `chunk_text` (API.py lines 103-115): split text into chunks of
`chunkSize` characters, consecutive chunks overlapping by `overlap`. -/
def chunk_text (text : List Char) (chunkSize overlap : Nat)
    (hov : overlap < chunkSize) : List (List Char) :=
  chunkLoop text chunkSize overlap hov 0

/-- Modelled from the spec sentence "chunk count = ceil(max(L−overlap,1)/(size-overlap))"
with size 1000 and overlap 200: the chunk count the specification claims. -/
def claimedChunkCount (L : Nat) : Nat := (max (L - 200) 1 + 799) / 800

/-- Python whitespace (the ASCII characters `str.strip` removes). -/
def isPySpace (c : Char) : Bool :=
  c == ' ' || c == '\t' || c == '\n' || c == '\r' || c == Char.ofNat 11 || c == Char.ofNat 12

/-- Python `str.strip()`: remove leading and trailing whitespace. -/
def pyStrip (l : List Char) : List Char :=
  ((l.dropWhile isPySpace).reverse.dropWhile isPySpace).reverse

/-- The PyPDF2 page loop of `extract_text_from_pdf` (API.py lines 54-57):
concatenate each page's text layer followed by a newline, skipping pages whose
extracted text is empty (Python falsiness of the empty string). -/
def pagesToText (pages : List (List Char)) : List Char :=
  pages.foldl (fun acc p => if p = [] then acc else acc ++ p ++ ['\n']) []

/-- The OCR page loop of `extract_text_from_pdf` (API.py lines 74-85):
concatenate every page's OCR output followed by a newline (no emptiness
check). -/
def ocrPagesToText (pages : List (List Char)) : List Char :=
  pages.foldl (fun acc p => acc ++ p ++ ['\n']) []

/-- `extract_text_from_pdf` (API.py lines 47-100).  The PDF reading libraries
are external collaborators: `primary` holds the per-page text layers PyPDF2
returns (or the exception the primary pass raises), `ocr` holds the per-page
OCR strings (or the exception / missing import the OCR path raises). -/
def extract_text_from_pdf (primary ocr : Except (List Char) (List (List Char))) :
    Except (List Char) (List Char) :=
  match primary with
  | .error e => .error e
  | .ok pgs =>
    let text := pagesToText pgs
    if (pyStrip text).length < 50 then
      match ocr with
      | .error _ => .ok text
      | .ok opgs =>
        let ocrText := ocrPagesToText opgs
        if (pyStrip text).length < (pyStrip ocrText).length then .ok ocrText
        else .ok text
    else .ok text

/-- A chunk record stored in the ChromaDB collection (`store_in_chromadb`,
API.py lines 128-147): the chunk id, the chunk text, and the metadata fields
filename, doc_id and chunk_index. -/
structure ChunkRecord where
  id : List Char
  document : List Char
  filename : List Char
  doc_id : List Char
  chunk_index : Nat
deriving DecidableEq

/-- The server-side state the endpoints touch: the ChromaDB collection
contents (in insertion order) and the names of the files saved in the upload
folder. -/
structure ServerState where
  chunks : List ChunkRecord
  files : List (List Char)
deriving DecidableEq

/-- The characters after the last `.` of a filename
(Python `filename.rsplit('.', 1)[1]`, used only when a dot is present). -/
def extOf (filename : List Char) : List Char :=
  (filename.reverse.takeWhile (fun c => c != '.')).reverse

/-- `allowed_file` (API.py lines 41-44): the name contains a dot and the part
after the last dot, lowercased, is `pdf`. -/
def allowed_file (filename : List Char) : Bool :=
  filename.contains '.' && decide ((extOf filename).map Char.toLower = "pdf".toList)

/-- The record list built by the `for i, chunk in enumerate(chunks)` loop of
`store_in_chromadb` (API.py lines 133-141): ids `doc_id + "_chunk_" + i` and
metadata carrying the filename, the doc id and the chunk index. -/
def buildRecords (docId filename : List Char) :
    List (List Char) → Nat → List ChunkRecord
  | [], _ => []
  | ch :: rest, i =>
    { id := docId ++ "_chunk_".toList ++ (toString i).toList
      document := ch
      filename := filename
      doc_id := docId
      chunk_index := i } :: buildRecords docId filename rest (i + 1)

/-- `store_in_chromadb` (API.py lines 118-149), with the generated uuid passed
in as `docId` (uuid4 is an external source of fresh names): chunk the text,
append one record per chunk to the collection, and return the new collection
together with the doc id and the chunk count. -/
def store_in_chromadb (col : List ChunkRecord) (text filename docId : List Char) :
    List ChunkRecord × List Char × Nat :=
  let chunks := chunk_text text 1000 200 ovLt
  (col ++ buildRecords docId filename chunks 0, docId, chunks.length)

/-- Responses of POST /api/upload. -/
inductive UploadResult where
  | badRequest (msg : List Char)
  | ok (filename docId : List Char) (chunks textLength : Nat)
  | serverError (msg : List Char)
deriving DecidableEq

/-- The HTTP status code of an upload response. -/
def UploadResult.status : UploadResult → Nat
  | .badRequest _ => 400
  | .ok _ _ _ _ => 200
  | .serverError _ => 500

/-- The `chunks` field of a successful upload response. -/
def UploadResult.chunksReported : UploadResult → Option Nat
  | .ok _ _ n _ => some n
  | _ => none

/-- The `text_length` field of a successful upload response. -/
def UploadResult.textLengthReported : UploadResult → Option Nat
  | .ok _ _ _ tl => some tl
  | _ => none

/-- The `filename` field of a successful upload response. -/
def UploadResult.filenameReported : UploadResult → Option (List Char)
  | .ok f _ _ _ => some f
  | _ => none

def noFileMsg : List Char := "No file provided".toList

def noFileSelectedMsg : List Char := "No file selected".toList

def onlyPdfMsg : List Char := "Only PDF files are allowed".toList

def duplicateMsg : List Char :=
  "File already uploaded. Please delete the existing file first or upload a different file.".toList

def noTextMsg : List Char := "No text could be extracted from PDF".toList

/-- Saving a file into the upload folder: `file.save` overwrites, so the model
keeps at most one entry per name. -/
def saveFile (files : List (List Char)) (name : List Char) : List (List Char) :=
  if name ∈ files then files else name :: files

/-- `upload_document` (API.py lines 198-252).  The external collaborators are
parameters: `sf` is werkzeug's `secure_filename`, `primary` and `ocr` describe
what the PDF readers return for the uploaded file, and `docId` is the uuid4
value.  `file?` is `none` when the request carries no `file` part and
`some rawName` otherwise. -/
def upload_document (sf : List Char → List Char) (s : ServerState)
    (file? : Option (List Char))
    (primary ocr : Except (List Char) (List (List Char)))
    (docId : List Char) : UploadResult × ServerState :=
  match file? with
  | none => (.badRequest noFileMsg, s)
  | some rawName =>
    if rawName = [] then (.badRequest noFileSelectedMsg, s)
    else if allowed_file rawName = false then (.badRequest onlyPdfMsg, s)
    else
      let filename := sf rawName
      if s.chunks.any (fun c => decide (c.filename = filename)) then
        (.badRequest duplicateMsg, s)
      else
        let files1 := saveFile s.files filename
        match extract_text_from_pdf primary ocr with
        | .error e => (.serverError e, { s with files := files1 })
        | .ok text =>
          if pyStrip text = [] then
            (.badRequest noTextMsg,
              { chunks := s.chunks
                files := files1.filter (fun f => decide (f ≠ filename)) })
          else
            let res := store_in_chromadb s.chunks text filename docId
            (.ok filename docId res.2.2 text.length,
              { chunks := res.1, files := files1 })

/-- The slice of a ChromaDB query result the chat endpoint reads: the first
(and only) row of `documents` and of `metadatas`. -/
structure QueryResult where
  documents : List (List Char)
  metadatas : List ChunkRecord

/-- Responses of POST /api/chat. -/
inductive ChatResult where
  | badRequest (msg : List Char)
  | ok (answer : List Char) (sources : List (List Char))
deriving DecidableEq

/-- The HTTP status code of a chat response. -/
def ChatResult.status : ChatResult → Nat
  | .badRequest _ => 400
  | .ok _ _ => 200

def noQuestionMsg : List Char := "No question provided".toList

/-- The apostrophe character, kept out of string literals. -/
def apos : Char := Char.ofNat 39

/-- The canned no-documents answer of the chat endpoint (API.py line 274). -/
def noDocsAnswer : List Char :=
  "I don".toList ++ [apos] ++
    "t have any documents to reference. Please upload a PDF document first.".toList

/-- The answer `generate_response` returns when Gemini is not configured
(API.py line 168). -/
def notConfiguredMsg : List Char :=
  "Error: Gemini API is not configured. Please set GEMINI_API_KEY environment variable.".toList

/-- The inline error answer prefix of `generate_response` (API.py line 185). -/
def genErrorPrefix : List Char := "Error generating response: ".toList

/-- The prompt `generate_response` builds (API.py lines 170-178). -/
def promptText (question context : List Char) : List Char :=
  "You are a helpful AI assistant. Answer the user".toList ++ [apos] ++
    "s question based on the provided context.\nIf the answer cannot be found in the context, say so politely.\n\nContext:\n".toList
    ++ context ++ "\n\nQuestion: ".toList ++ question ++ "\n\nAnswer:".toList

/-- `generate_response` (API.py lines 165-185): the hosted Gemini model is the
external parameter `gen`, returning either the generated text or the message
of the exception it raises. -/
def generate_response (modelConfigured : Bool)
    (gen : List Char → Except (List Char) (List Char))
    (question context : List Char) : List Char :=
  if modelConfigured = false then notConfiguredMsg
  else
    match gen (promptText question context) with
    | .ok t => t
    | .error e => genErrorPrefix ++ e

/-- The `seen_files` dedup loop of the chat endpoint (API.py lines 282-288). -/
def dedupSources : List ChunkRecord → List (List Char) → List (List Char)
  | [], _ => []
  | m :: rest, seen =>
    if m.filename ∈ seen then dedupSources rest seen
    else m.filename :: dedupSources rest (m.filename :: seen)

/-- `chat` (API.py lines 255-297).  `queryFn` is the external ChromaDB
nearest-neighbour query; `body` is `none` for a missing or falsy JSON body,
`some none` for a body without a `question` key, and `some (some q)`
otherwise. -/
def chat (modelConfigured : Bool)
    (gen : List Char → Except (List Char) (List Char))
    (queryFn : List Char → QueryResult)
    (body : Option (Option (List Char))) : ChatResult :=
  match body with
  | none => .badRequest noQuestionMsg
  | some none => .badRequest noQuestionMsg
  | some (some q) =>
    let results := queryFn q
    let context :=
      if results.documents = [] then []
      else List.intercalate "\n\n".toList results.documents
    if context = [] then .ok noDocsAnswer []
    else
      .ok (generate_response modelConfigured gen q context)
        (dedupSources results.metadatas [])

/-- The unique-docs loop of `list_documents` (API.py lines 310-317): one
(id, filename) pair per doc_id, first occurrence wins, entries with falsy
(empty) filename or doc_id skipped; `seen` holds the doc ids collected so
far. -/
def uniqueDocsAux : List ChunkRecord → List (List Char) → List (List Char × List Char)
  | [], _ => []
  | c :: rest, seen =>
    if c.filename ≠ [] ∧ c.doc_id ≠ [] ∧ c.doc_id ∉ seen then
      (c.doc_id, c.filename) :: uniqueDocsAux rest (c.doc_id :: seen)
    else
      uniqueDocsAux rest seen

/-- `list_documents` (API.py lines 300-326): the (id, filename) pairs of the
documents response. -/
def list_documents (s : ServerState) : List (List Char × List Char) :=
  uniqueDocsAux s.chunks []

/-- Responses of DELETE /api/documents/doc_id. -/
inductive DeleteResult where
  | notFound
  | deleted (filename : List Char) (chunksDeleted : Nat)
deriving DecidableEq

/-- The HTTP status code of a delete response. -/
def DeleteResult.status : DeleteResult → Nat
  | .notFound => 404
  | .deleted _ _ => 200

/-- `delete_document` (API.py lines 329-374): find the filename of the first
chunk whose metadata doc_id matches (404 if none, or if that filename is
falsy), collect the ids of all matching chunks, delete those ids from the
collection, and remove the stored file. -/
def delete_document (s : ServerState) (docId : List Char) :
    DeleteResult × ServerState :=
  match s.chunks.find? (fun c => decide (c.doc_id = docId)) with
  | none => (.notFound, s)
  | some c0 =>
    if c0.filename = [] then (.notFound, s)
    else
      let idsToDelete :=
        (s.chunks.filter (fun c => decide (c.doc_id = docId))).map ChunkRecord.id
      (.deleted c0.filename idsToDelete.length,
        { chunks := s.chunks.filter (fun c => decide (c.id ∉ idsToDelete))
          files := s.files.filter (fun f => decide (f ≠ c0.filename)) })

/-- The state used by the C6 witness: one stored chunk of document d1 named
a.pdf. -/
def dupState : ServerState :=
  { chunks := [{ id := "d1_chunk_0".toList, document := "hello".toList,
                 filename := "a.pdf".toList, doc_id := "d1".toList,
                 chunk_index := 0 }]
    files := ["a.pdf".toList] }

/-- The raw filename of the C4 example upload. -/
def xpdfName : List Char := "x.pdf".toList

/-- The 2400-character page text of the C4 example upload. -/
def page2400 : List Char := List.replicate 2400 'a'

/-- The primary page content used by the C10 witness. -/
def c10Pdf : Except (List Char) (List (List Char)) := .ok [List.replicate 60 'b']

/-- The state after the first upload of the C10 witness. -/
def c10State : ServerState :=
  (upload_document (fun _ => "a.pdf".toList) { chunks := [], files := [] }
    (some "x.pdf".toList) c10Pdf (.error []) "d1".toList).2

/-- Closed form of the chunking loop with the default parameters: from `start`,
the loop yields one window per multiple of the stride 800 below the remaining
length, window `j` being `text[start + 800j : start + 800j + 1000]`. -/
theorem chunkLoop_eq (text : List Char) (fuel : Nat) :
    ∀ start, text.length - start ≤ fuel →
      chunkLoop text 1000 200 ovLt start =
        (List.range ((text.length - start + 799) / 800)).map
          (fun j => (text.drop (start + j * 800)).take 1000) := by
  induction fuel with
  | zero =>
    intro start h
    have hs : ¬ start < text.length := by omega
    have hz : (text.length - start + 799) / 800 = 0 := by omega
    rw [chunkLoop, dif_neg hs, hz]
    simp
  | succ n ih =>
    intro start h
    by_cases hs : start < text.length
    · rw [chunkLoop, dif_pos hs]
      have hstep : start + (1000 - 200) = start + 800 := by norm_num
      rw [hstep, ih (start + 800) (by omega)]
      have hN : (text.length - start + 799) / 800 =
          ((text.length - (start + 800) + 799) / 800) + 1 := by omega
      rw [hN, List.range_succ_eq_map]
      simp only [List.map_cons, List.map_map, Nat.zero_mul, Nat.add_zero]
      congr 1
      apply List.map_congr_left
      intro j _
      simp only [Function.comp_apply, Nat.succ_eq_add_one]
      have harith : start + 800 + j * 800 = start + (j + 1) * 800 := by ring
      rw [harith]
    · have hz : (text.length - start + 799) / 800 = 0 := by omega
      rw [chunkLoop, dif_neg hs, hz]
      simp

/-- Closed form of `chunk_text` with the default parameters: the list of
windows `text[800i : 800i + 1000]` for `i < ceil(len(text) / 800)`. -/
theorem chunk_text_eq (text : List Char) :
    chunk_text text 1000 200 ovLt =
      (List.range ((text.length + 799) / 800)).map
        (fun i => (text.drop (i * 800)).take 1000) := by
  have h := chunkLoop_eq text text.length 0 (by omega)
  simpa [chunk_text] using h

/-- The number of windows produced by `chunk_text` with default parameters. -/
theorem chunk_text_length (text : List Char) :
    (chunk_text text 1000 200 ovLt).length = (text.length + 799) / 800 := by
  rw [chunk_text_eq]
  simp

/-- C1: `chunk_text(T)` with size 1000 and overlap 200 returns, in order, one
window per index `i` with `i * 800 < len(T)`, window `i` being the substring
of `T` at positions `[i*800, i*800 + 1000)` (clamped at the end of `T`,
so the final window may be shorter); no boundary trimming occurs. -/
theorem chunk_text_windows (T : List Char) :
    chunk_text T 1000 200 ovLt =
      (List.range ((T.length + 799) / 800)).map
        (fun i => (T.drop (i * 800)).take 1000)
    ∧ ∀ i : Nat, i < (T.length + 799) / 800 ↔ i * 800 < T.length := by
  refine ⟨chunk_text_eq T, ?_⟩
  intro i
  omega

/-- C2 counterexample: for a text of 801 characters the code produces 2 windows
(starts 0 and 800) while the spec formula ceil(max(801−200,1)/800) gives 1. -/
theorem chunk_count_formula_cex :
    ¬ ((chunk_text (List.replicate 801 'a') 1000 200 ovLt).length =
        claimedChunkCount (List.replicate 801 'a').length) := by
  rw [chunk_text_length]
  simp only [List.length_replicate, claimedChunkCount]
  norm_num

/-- C2 amended: for a text of length L, `chunk_text` with default parameters
produces exactly ceil(L / 800) windows (0 windows when L = 0). -/
theorem chunk_text_count (T : List Char) :
    (chunk_text T 1000 200 ovLt).length = (T.length + 799) / 800 :=
  chunk_text_length T

/-- C3 counterexample: on a text of 801 characters `chunk_text` returns two
windows whose first (non-final) window is the whole 801-character text,
of length 801, not 1000. -/
theorem chunk_nonlast_size_cex :
    ¬ (∀ (i : Nat) (w : List Char),
        i + 1 < (chunk_text (List.replicate 801 'a') 1000 200 ovLt).length →
        (chunk_text (List.replicate 801 'a') 1000 200 ovLt)[i]? = some w →
        w.length = 1000) := by
  intro hcl
  have h0 : (chunk_text (List.replicate 801 'a') 1000 200 ovLt)[0]? =
      some (List.replicate 801 'a') := by
    rw [chunk_text_eq]
    simp only [List.length_replicate]
    norm_num
  have hlen : (0 : Nat) + 1 < (chunk_text (List.replicate 801 'a') 1000 200 ovLt).length := by
    rw [chunk_text_length]
    simp only [List.length_replicate]
    norm_num
  have hw := hcl 0 (List.replicate 801 'a') hlen h0
  simp only [List.length_replicate] at hw
  omega

/-- C3 amended: every window of `chunk_text` except the last two has length
exactly 1000, and every window except the last has length greater than 800. -/
theorem chunk_nonlast_sizes (T : List Char) :
    (∀ (i : Nat) (w : List Char),
        i + 2 < (chunk_text T 1000 200 ovLt).length →
        (chunk_text T 1000 200 ovLt)[i]? = some w → w.length = 1000)
    ∧ (∀ (i : Nat) (w : List Char),
        i + 1 < (chunk_text T 1000 200 ovLt).length →
        (chunk_text T 1000 200 ovLt)[i]? = some w → 800 < w.length) := by
  have hget : ∀ (i : Nat) (w : List Char),
      (chunk_text T 1000 200 ovLt)[i]? = some w →
      w.length = min 1000 (T.length - i * 800) := by
    intro i w hw
    rw [chunk_text_eq, List.getElem?_map] at hw
    by_cases hi : i < (T.length + 799) / 800
    · rw [List.getElem?_range hi] at hw
      have hfi := Option.some.inj hw
      rw [← hfi]
      simp
    · exfalso
      rw [List.getElem?_eq_none (by simpa using Nat.le_of_not_lt hi)] at hw
      exact Option.noConfusion hw
  constructor
  · intro i w hi hw
    have hlen := chunk_text_length T
    have hw2 := hget i w hw
    omega
  · intro i w hi hw
    have hlen := chunk_text_length T
    have hw2 := hget i w hw
    omega

/-- Witness for the amended C3 on a concrete text of 1700 characters: the
first of its three windows has length exactly 1000 (hence also above 800). -/
theorem chunk_nonlast_sizes_w :
    (chunk_text (List.replicate 1700 'a') 1000 200 ovLt)[0]? =
        some (List.replicate 1000 'a')
    ∧ (List.replicate 1000 'a').length = 1000
    ∧ 800 < (List.replicate 1000 'a').length := by
  have h0 : (chunk_text (List.replicate 1700 'a') 1000 200 ovLt)[0]? =
      some (List.replicate 1000 'a') := by
    rw [chunk_text_eq]
    simp only [List.length_replicate]
    norm_num
  refine ⟨h0, ?_, ?_⟩
  · exact (chunk_nonlast_sizes (List.replicate 1700 'a')).1 0 _
      (by rw [chunk_text_length]; simp only [List.length_replicate]; norm_num) h0
  · exact (chunk_nonlast_sizes (List.replicate 1700 'a')).2 0 _
      (by rw [chunk_text_length]; simp only [List.length_replicate]; norm_num) h0

/-- C9: a primary-pass exception propagates; when the trimmed primary text is
shorter than 50 characters the OCR pass is consulted and its output replaces
the primary text exactly when its trimmed form is strictly longer, an OCR
exception being swallowed; with 50 or more trimmed characters the primary
text is returned and the OCR result is irrelevant. -/
theorem extract_text_policy (pp opgs : List (List Char)) (e eo : List Char) :
    (∀ ocr, extract_text_from_pdf (.error e) ocr = .error e)
    ∧ ((pyStrip (pagesToText pp)).length < 50 →
        extract_text_from_pdf (.ok pp) (.error eo) = .ok (pagesToText pp))
    ∧ ((pyStrip (pagesToText pp)).length < 50 →
        extract_text_from_pdf (.ok pp) (.ok opgs) =
          .ok (if (pyStrip (pagesToText pp)).length <
                  (pyStrip (ocrPagesToText opgs)).length
               then ocrPagesToText opgs else pagesToText pp))
    ∧ (50 ≤ (pyStrip (pagesToText pp)).length →
        ∀ ocr, extract_text_from_pdf (.ok pp) ocr = .ok (pagesToText pp)) := by
  refine ⟨fun ocr => rfl, fun h => ?_, fun h => ?_, fun h ocr => ?_⟩
  · simp only [extract_text_from_pdf, if_pos h]
  · simp only [extract_text_from_pdf, if_pos h]
    rw [apply_ite Except.ok]
  · simp only [extract_text_from_pdf, if_neg (Nat.not_lt.mpr h)]

/-- Witness for C9 at a one-page PDF whose text layer is the single character
`a` (trimmed length 1 < 50) and whose OCR pass raises: the primary text is
kept. -/
theorem extract_text_policy_w :
    extract_text_from_pdf (.ok [['a']]) (.error []) = .ok (pagesToText [['a']]) :=
  (extract_text_policy [['a']] [] [] []).2.1 (by decide)

theorem dropWhile_replicate_append (p : Char → Bool) (c : Char) (n : Nat)
    (l : List Char) (hc : p c = false) (hn : 0 < n) :
    (List.replicate n c ++ l).dropWhile p = List.replicate n c ++ l := by
  cases n with
  | zero => omega
  | succ m => simp [List.replicate_succ, List.dropWhile_cons, hc]

theorem dropWhile_replicate (p : Char → Bool) (c : Char) (n : Nat)
    (hc : p c = false) :
    (List.replicate n c).dropWhile p = List.replicate n c := by
  cases n with
  | zero => simp
  | succ m => simp [List.replicate_succ, List.dropWhile_cons, hc]

/-- Stripping a run of a non-whitespace character followed by a newline keeps
exactly the run. -/
theorem pyStrip_replicate_newline (c : Char) (n : Nat) (hc : isPySpace c = false)
    (hn : 0 < n) :
    pyStrip (List.replicate n c ++ ['\n']) = List.replicate n c := by
  unfold pyStrip
  rw [dropWhile_replicate_append _ c n _ hc hn, List.reverse_append]
  simp only [List.reverse_cons, List.reverse_nil, List.nil_append,
    List.reverse_replicate, List.cons_append]
  rw [List.dropWhile_cons]
  norm_num [show isPySpace '\n' = true from rfl]
  simp [List.filter_replicate, hc]

theorem pagesToText_single (p : List Char) (hp : p ≠ []) :
    pagesToText [p] = p ++ ['\n'] := by
  simp [pagesToText, hp]

/-- C5: when the vector index holds no chunks, any sound query result is empty
and the chat endpoint returns 200 with exactly the canned no-documents answer
and an empty sources list. -/
theorem chat_empty_index (s : ServerState) (modelConfigured : Bool)
    (gen : List Char → Except (List Char) (List Char))
    (queryFn : List Char → QueryResult) (q : List Char)
    (hempty : s.chunks = [])
    (hsound : ∀ d ∈ (queryFn q).documents, ∃ c ∈ s.chunks, c.document = d) :
    chat modelConfigured gen queryFn (some (some q)) = .ok noDocsAnswer []
    ∧ (chat modelConfigured gen queryFn (some (some q))).status = 200 := by
  have hdocs : (queryFn q).documents = [] := by
    cases hd : (queryFn q).documents with
    | nil => rfl
    | cons d rest =>
      exfalso
      obtain ⟨c, hc, _⟩ := hsound d (by rw [hd]; exact List.mem_cons_self d rest)
      rw [hempty] at hc
      exact (List.not_mem_nil c) hc
  refine ⟨?_, ?_⟩
  · simp [chat, hdocs]
  · simp [chat, hdocs, ChatResult.status]

/-- Witness for C5: an empty index, a query returning nothing, and the
question `hi`. -/
theorem chat_empty_index_w :
    chat false (fun _ => .error []) (fun _ => ⟨[], []⟩) (some (some "hi".toList)) =
      .ok noDocsAnswer [] :=
  (chat_empty_index ⟨[], []⟩ false (fun _ => .error []) (fun _ => ⟨[], []⟩)
    "hi".toList rfl (by intro d hd; exact absurd hd (List.not_mem_nil d))).1

/-- C6: when the sanitized upload filename is already present in the chunk
metadata (for a stored name `raw`, `sf raw = raw` because stored names are
secure_filename images and secure_filename is idempotent), the upload returns
HTTP 400 and leaves the server state, in particular the stored chunk set,
unchanged. -/
theorem upload_duplicate_rejected (sf : List Char → List Char) (s : ServerState)
    (raw : List Char) (primary ocr : Except (List Char) (List (List Char)))
    (docId : List Char)
    (hmem : raw ∈ s.chunks.map ChunkRecord.filename)
    (hsf : sf raw = raw) :
    (upload_document sf s (some raw) primary ocr docId).1.status = 400
    ∧ (upload_document sf s (some raw) primary ocr docId).2 = s := by
  unfold upload_document
  by_cases h1 : raw = []
  · simp [h1, UploadResult.status]
  · by_cases h2 : allowed_file raw = false
    · simp [h1, h2, UploadResult.status]
    · have hdup : s.chunks.any (fun c => decide (c.filename = sf raw)) = true := by
        rw [hsf, List.any_eq_true]
        obtain ⟨c, hc, hceq⟩ := List.mem_map.mp hmem
        exact ⟨c, hc, by simp [hceq]⟩
      simp [h1, h2, hdup, UploadResult.status]

/-- Witness for C6: re-uploading a.pdf into `dupState` is rejected with 400
and the state is unchanged. -/
theorem upload_duplicate_rejected_w :
    (upload_document (fun l => l) dupState (some "a.pdf".toList) (.ok []) (.ok [])
        "d2".toList).1.status = 400
    ∧ (upload_document (fun l => l) dupState (some "a.pdf".toList) (.ok []) (.ok [])
        "d2".toList).2 = dupState :=
  upload_duplicate_rejected (fun l => l) dupState "a.pdf".toList (.ok []) (.ok [])
    "d2".toList (by simp [dupState]) rfl

/-- C8: if Gemini is configured and the generation call raises while the
retrieved context is non-empty, the chat endpoint still returns HTTP 200 and
its answer field is the inline error string built from the exception message.
-/
theorem chat_generation_error
    (gen : List Char → Except (List Char) (List Char))
    (queryFn : List Char → QueryResult) (q e : List Char)
    (hctx : List.intercalate "\n\n".toList (queryFn q).documents ≠ [])
    (herr : gen (promptText q
        (List.intercalate "\n\n".toList (queryFn q).documents)) = .error e) :
    chat true gen queryFn (some (some q)) =
      .ok (genErrorPrefix ++ e) (dedupSources (queryFn q).metadatas [])
    ∧ (chat true gen queryFn (some (some q))).status = 200 := by
  have hdocs : ¬ (queryFn q).documents = [] := by
    intro h
    apply hctx
    rw [h]
    rfl
  have hmain : chat true gen queryFn (some (some q)) =
      .ok (genErrorPrefix ++ e) (dedupSources (queryFn q).metadatas []) := by
    simp only [chat, if_neg hdocs, if_neg hctx, generate_response]
    rw [if_neg (by simp), herr]
  exact ⟨hmain, by rw [hmain]; rfl⟩

/-- Witness for C8: one retrieved chunk `ctx`, a generation collaborator that
always raises `boom`. -/
theorem chat_generation_error_w :
    chat true (fun _ => .error "boom".toList) (fun _ => ⟨["ctx".toList], []⟩)
        (some (some "hi".toList)) =
      .ok (genErrorPrefix ++ "boom".toList) [] :=
  (chat_generation_error (fun _ => .error "boom".toList)
    (fun _ => ⟨["ctx".toList], []⟩) "hi".toList "boom".toList
    (by simp [List.intercalate])
    rfl).1

theorem replicate_ne_nil_of_pos (c : Char) (n : Nat) (hn : 0 < n) :
    List.replicate n c ≠ [] := by
  intro h
  have hlen := congrArg List.length h
  simp only [List.length_replicate, List.length_nil] at hlen
  omega

theorem page2400_ne_nil : page2400 ≠ [] := by
  unfold page2400
  exact replicate_ne_nil_of_pos 'a' 2400 (by norm_num)

theorem page2400_strip : pyStrip (page2400 ++ ['\n']) = page2400 := by
  unfold page2400
  exact pyStrip_replicate_newline 'a' 2400 (by decide) (by norm_num)

theorem page2400_length : page2400.length = 2400 := by
  unfold page2400
  simp only [List.length_replicate]

theorem extract_xpdf :
    extract_text_from_pdf (.ok [page2400]) (.ok []) = .ok (page2400 ++ ['\n']) := by
  have hp : pagesToText [page2400] = page2400 ++ ['\n'] :=
    pagesToText_single _ page2400_ne_nil
  simp only [extract_text_from_pdf, hp, page2400_strip]
  rw [if_neg (by rw [page2400_length]; norm_num)]

/-- The success path of `upload_document`: with a non-empty allowed raw name,
no stored chunk carrying the sanitized name, a successful extraction with
non-blank text, the upload saves the file, appends one record per chunk and
reports the sanitized filename, the doc id, the chunk count and the text
length. -/
theorem upload_success (sf : List Char → List Char) (s : ServerState)
    (raw : List Char) (primary ocr : Except (List Char) (List (List Char)))
    (docId text : List Char)
    (hraw : ¬ raw = [])
    (hallow : ¬ allowed_file raw = false)
    (hnodup : s.chunks.any (fun c => decide (c.filename = sf raw)) = false)
    (hex : extract_text_from_pdf primary ocr = .ok text)
    (htext : ¬ pyStrip text = []) :
    upload_document sf s (some raw) primary ocr docId =
      (.ok (sf raw) docId (chunk_text text 1000 200 ovLt).length text.length,
       { chunks := s.chunks ++ buildRecords docId (sf raw)
           (chunk_text text 1000 200 ovLt) 0
         files := saveFile s.files (sf raw) }) := by
  simp only [upload_document]
  rw [if_neg hraw, if_neg hallow, hnodup]
  simp only [Bool.false_eq_true, if_false, hex]
  rw [if_neg htext]
  simp only [store_in_chromadb]

/-- The upload of the C4 example evaluated: the extracted text has the page
text plus the appended newline, hence 2401 characters and 4 chunks. -/
theorem upload_xpdf (sf : List Char → List Char) (docId : List Char) :
    (upload_document sf ⟨[], []⟩ (some xpdfName) (.ok [page2400]) (.ok [])
        docId).1 = .ok (sf xpdfName) docId 4 2401 := by
  rw [upload_success sf ⟨[], []⟩ xpdfName (.ok [page2400]) (.ok []) docId
      (page2400 ++ ['\n']) (by decide) (by decide) rfl extract_xpdf
      (by rw [page2400_strip]; exact page2400_ne_nil)]
  rw [chunk_text_length]
  simp only [List.length_append, page2400_length, List.length_cons, List.length_nil]

/-- C4 counterexample: uploading the single-page text-layer PDF x.pdf whose
page text is 2400 characters returns 200, but the extractor appends a newline
per page, so the indexed text has 2401 characters and chunks into 4 windows
(starts 0, 800, 1600, 2400); the response reports chunks = 4 and
text_length = 2401, contradicting the claimed chunks = 3 and
text_length = 2400. -/
theorem upload_2400_cex :
    (upload_document (fun l => l) ⟨[], []⟩ (some xpdfName) (.ok [page2400])
        (.ok []) "d1".toList).1.status = 200
    ∧ (upload_document (fun l => l) ⟨[], []⟩ (some xpdfName) (.ok [page2400])
        (.ok []) "d1".toList).1.chunksReported = some 4
    ∧ (upload_document (fun l => l) ⟨[], []⟩ (some xpdfName) (.ok [page2400])
        (.ok []) "d1".toList).1.textLengthReported = some 2401
    ∧ ¬ ((upload_document (fun l => l) ⟨[], []⟩ (some xpdfName) (.ok [page2400])
        (.ok []) "d1".toList).1.chunksReported = some 3
      ∧ (upload_document (fun l => l) ⟨[], []⟩ (some xpdfName) (.ok [page2400])
        (.ok []) "d1".toList).1.textLengthReported = some 2400) := by
  rw [upload_xpdf]
  refine ⟨rfl, rfl, rfl, ?_⟩
  rintro ⟨h1, h2⟩
  exact absurd (Option.some.inj h1) (by norm_num)

/-- C4 amended: for any sanitizer and generated doc id, uploading the
single-page text-layer PDF x.pdf whose page text is 2400 characters yields a
200 response reporting chunks = 4 (window starts 0, 800, 1600 and 2400 in the
2401-character extracted text) and text_length = 2401. -/
theorem upload_2400 (sf : List Char → List Char) (docId : List Char) :
    (upload_document sf ⟨[], []⟩ (some xpdfName) (.ok [page2400]) (.ok [])
        docId).1.status = 200
    ∧ (upload_document sf ⟨[], []⟩ (some xpdfName) (.ok [page2400]) (.ok [])
        docId).1.chunksReported = some 4
    ∧ (upload_document sf ⟨[], []⟩ (some xpdfName) (.ok [page2400]) (.ok [])
        docId).1.textLengthReported = some 2401 := by
  refine ⟨?_, ?_, ?_⟩ <;> rw [upload_xpdf] <;> rfl

/-- Every (id, filename) pair the listing loop produces comes from some chunk
record of its input. -/
theorem uniqueDocsAux_mem :
    ∀ (l : List ChunkRecord) (seen : List (List Char)) (p : List Char × List Char),
      p ∈ uniqueDocsAux l seen → ∃ c ∈ l, c.doc_id = p.1 ∧ c.filename = p.2 := by
  intro l
  induction l with
  | nil =>
    intro seen p hp
    simp only [uniqueDocsAux] at hp
    exact absurd hp (List.not_mem_nil p)
  | cons c rest ih =>
    intro seen p hp
    simp only [uniqueDocsAux] at hp
    split at hp
    · rcases List.mem_cons.mp hp with h | h
      · refine ⟨c, List.mem_cons_self c rest, ?_, ?_⟩ <;> rw [h]
      · obtain ⟨c2, hc2, h1, h2⟩ := ih _ p h
        exact ⟨c2, List.mem_cons_of_mem _ hc2, h1, h2⟩
    · obtain ⟨c2, hc2, h1, h2⟩ := ih _ p hp
      exact ⟨c2, List.mem_cons_of_mem _ hc2, h1, h2⟩

/-- C7: under the reachable-state invariants that stored filenames are
non-empty and chunk ids are pairwise distinct, DELETE of a doc id returns 404
and leaves the state unchanged when no stored chunk carries it; otherwise it
returns 200 with chunks_deleted the number of matching chunks, the collection
keeps exactly the non-matching chunks (so the doc id disappears from the
documents listing) and the stored file is removed. -/
theorem delete_document_spec (s : ServerState) (docId : List Char)
    (hfn : ∀ c ∈ s.chunks, c.filename ≠ [])
    (hids : (s.chunks.map ChunkRecord.id).Nodup) :
    ((∀ c ∈ s.chunks, c.doc_id ≠ docId) →
      delete_document s docId = (.notFound, s)
      ∧ (delete_document s docId).1.status = 404)
    ∧ ((∃ c ∈ s.chunks, c.doc_id = docId) →
      (delete_document s docId).1.status = 200
      ∧ (∃ fn, (delete_document s docId).1 =
          .deleted fn ((s.chunks.filter (fun c => decide (c.doc_id = docId))).length)
          ∧ fn ∉ (delete_document s docId).2.files)
      ∧ (delete_document s docId).2.chunks =
          s.chunks.filter (fun c => decide (c.doc_id ≠ docId))
      ∧ docId ∉ (list_documents (delete_document s docId).2).map Prod.fst) := by
  constructor
  · intro hnone
    have hfind : s.chunks.find? (fun c => decide (c.doc_id = docId)) = none := by
      rw [List.find?_eq_none]
      intro c hc
      simp only [decide_eq_true_eq]
      exact hnone c hc
    constructor
    · simp only [delete_document, hfind]
    · simp only [delete_document, hfind, DeleteResult.status]
  · rintro ⟨c, hc, hcid⟩
    obtain ⟨c0, hfind⟩ : ∃ c0,
        s.chunks.find? (fun c => decide (c.doc_id = docId)) = some c0 := by
      cases hf : s.chunks.find? (fun c => decide (c.doc_id = docId)) with
      | none =>
        rw [List.find?_eq_none] at hf
        exact absurd (by simpa using hcid) (by simpa using hf c hc)
      | some c1 => exact ⟨c1, rfl⟩
    have hc0mem : c0 ∈ s.chunks := List.mem_of_find?_eq_some hfind
    have hc0fn : ¬ c0.filename = [] := hfn c0 hc0mem
    have hinj := List.inj_on_of_nodup_map hids
    have hfilter : s.chunks.filter (fun x => decide (x.id ∉
        (s.chunks.filter (fun c2 => decide (c2.doc_id = docId))).map ChunkRecord.id))
        = s.chunks.filter (fun x => decide (x.doc_id ≠ docId)) := by
      apply List.filter_congr
      intro x hx
      simp only [decide_eq_decide]
      constructor
      · intro hnotin hxid
        apply hnotin
        rw [List.mem_map]
        exact ⟨x, List.mem_filter.mpr ⟨hx, by simpa using hxid⟩, rfl⟩
      · intro hne hin
        rw [List.mem_map] at hin
        obtain ⟨y, hy, hyid⟩ := hin
        have hymem := (List.mem_filter.mp hy).1
        have hydoc : y.doc_id = docId := by simpa using (List.mem_filter.mp hy).2
        have hyx : y = x := hinj hymem hx hyid
        exact hne (by rw [← hyx]; exact hydoc)
    have hdel : delete_document s docId =
        (.deleted c0.filename
          ((s.chunks.filter (fun c2 => decide (c2.doc_id = docId))).map
            ChunkRecord.id).length,
         { chunks := s.chunks.filter (fun x => decide (x.id ∉
             (s.chunks.filter (fun c2 => decide (c2.doc_id = docId))).map
               ChunkRecord.id))
           files := s.files.filter (fun f => decide (f ≠ c0.filename)) }) := by
      simp only [delete_document, hfind]
      rw [if_neg hc0fn]
    refine ⟨by rw [hdel]; rfl, ⟨c0.filename, ?_, ?_⟩, ?_, ?_⟩
    · rw [hdel]
      simp only [List.length_map]
    · rw [hdel]
      intro hmem
      have h2 := (List.mem_filter.mp hmem).2
      simp at h2
    · rw [hdel]
      exact hfilter
    · rw [hdel]
      intro hmem
      rw [List.mem_map] at hmem
      obtain ⟨p, hp, hp1⟩ := hmem
      have hp2 : p ∈ uniqueDocsAux (s.chunks.filter
          (fun x => decide (x.doc_id ≠ docId))) [] := by
        rw [← hfilter]
        exact hp
      obtain ⟨c2, hc2, hdoc2, _⟩ := uniqueDocsAux_mem _ _ p hp2
      have hne2 : c2.doc_id ≠ docId := by
        simpa using (List.mem_filter.mp hc2).2
      exact hne2 (by rw [hdoc2, hp1])

/-- Witness for C7: deleting from an empty collection returns 404 and changes
nothing. -/
theorem delete_document_spec_w :
    delete_document { chunks := [], files := [] } "d".toList =
      (.notFound, { chunks := [], files := [] }) :=
  ((delete_document_spec { chunks := [], files := [] } "d".toList
      (by intro c hc; exact absurd hc (List.not_mem_nil c))
      (by simp)).1
    (by intro c hc; exact absurd hc (List.not_mem_nil c))).1

/-- The duplicate path of `upload_document`: a stored chunk whose metadata
filename equals the sanitized upload name stops the request with 400 before
any state change. -/
theorem upload_dup (sf : List Char → List Char) (s : ServerState)
    (raw : List Char) (primary ocr : Except (List Char) (List (List Char)))
    (docId : List Char)
    (hraw : ¬ raw = [])
    (hallow : ¬ allowed_file raw = false)
    (hdup : s.chunks.any (fun c => decide (c.filename = sf raw)) = true) :
    upload_document sf s (some raw) primary ocr docId =
      (.badRequest duplicateMsg, s) := by
  simp only [upload_document]
  rw [if_neg hraw, if_neg hallow, if_pos hdup]

/-- Every record the store loop builds carries the given filename and doc id.
-/
theorem buildRecords_mem (docId fn : List Char) :
    ∀ (chs : List (List Char)) (i : Nat) (r : ChunkRecord),
      r ∈ buildRecords docId fn chs i → r.filename = fn ∧ r.doc_id = docId := by
  intro chs
  induction chs with
  | nil =>
    intro i r hr
    simp only [buildRecords] at hr
    exact absurd hr (List.not_mem_nil r)
  | cons ch rest ih =>
    intro i r hr
    simp only [buildRecords] at hr
    rcases List.mem_cons.mp hr with h | h
    · rw [h]
      exact ⟨rfl, rfl⟩
    · exact ih (i + 1) r h

theorem buildRecords_ne_nil (docId fn : List Char) (chs : List (List Char))
    (hchs : chs ≠ []) (i : Nat) : buildRecords docId fn chs i ≠ [] := by
  cases chs with
  | nil => exact absurd rfl hchs
  | cons ch rest => simp [buildRecords]

theorem chunk_text_ne_nil (T : List Char) (hT : T ≠ []) :
    chunk_text T 1000 200 ovLt ≠ [] := by
  have hlen := chunk_text_length T
  intro h
  rw [h] at hlen
  simp only [List.length_nil] at hlen
  have hT0 : T.length ≠ 0 := by
    intro h0
    exact hT (List.length_eq_zero.mp h0)
  omega

theorem text_ne_nil_of_strip (text : List Char) (h : ¬ pyStrip text = []) :
    text ≠ [] := by
  intro ht
  apply h
  rw [ht]
  rfl

theorem allowed_file_ne_nil (raw : List Char) (h : ¬ allowed_file raw = false) :
    ¬ raw = [] := by
  intro hr
  apply h
  rw [hr]
  rfl

/-- The store loop builds one record per chunk. -/
theorem buildRecords_length (docId fn : List Char) :
    ∀ (chs : List (List Char)) (i : Nat),
      (buildRecords docId fn chs i).length = chs.length := by
  intro chs
  induction chs with
  | nil => intro i; rfl
  | cons ch rest ih =>
    intro i
    simp only [buildRecords, List.length_cons, ih (i + 1)]

/-- Deleting the freshly uploaded document from the post-upload state: the
DELETE response echoes the stored filename, with one deletion per chunk. -/
theorem delete_after_upload (s : ServerState) (docId fn text : List Char)
    (hfresh : ∀ c ∈ s.chunks, c.doc_id ≠ docId)
    (hfn : fn ≠ [])
    (htext : text ≠ []) :
    (delete_document
        { chunks := s.chunks ++
            buildRecords docId fn (chunk_text text 1000 200 ovLt) 0
          files := saveFile s.files fn } docId).1 =
      .deleted fn (chunk_text text 1000 200 ovLt).length := by
  have hfind1 : s.chunks.find? (fun c => decide (c.doc_id = docId)) = none := by
    rw [List.find?_eq_none]
    intro c hc
    simp only [decide_eq_true_eq]
    exact hfresh c hc
  have hmatch : ∀ c ∈ buildRecords docId fn (chunk_text text 1000 200 ovLt) 0,
      (fun c => decide (c.doc_id = docId)) c = true := by
    intro c hc
    simp only [decide_eq_true_eq]
    exact (buildRecords_mem docId fn _ 0 c hc).2
  obtain ⟨c0, hfind2⟩ : ∃ c0,
      (buildRecords docId fn (chunk_text text 1000 200 ovLt) 0).find?
        (fun c => decide (c.doc_id = docId)) = some c0 := by
    cases hf : (buildRecords docId fn (chunk_text text 1000 200 ovLt) 0).find?
        (fun c => decide (c.doc_id = docId)) with
    | none =>
      rw [List.find?_eq_none] at hf
      obtain ⟨c3, hc3⟩ := List.exists_mem_of_ne_nil _
        (buildRecords_ne_nil docId fn (chunk_text text 1000 200 ovLt)
          (chunk_text_ne_nil text htext) 0)
      exact absurd (hmatch c3 hc3) (by simpa using hf c3 hc3)
    | some c1 => exact ⟨c1, rfl⟩
  have hc0mem := List.mem_of_find?_eq_some hfind2
  have hc0fn : c0.filename = fn :=
    (buildRecords_mem docId fn (chunk_text text 1000 200 ovLt) 0 c0 hc0mem).1
  have hf1 : s.chunks.filter (fun c => decide (c.doc_id = docId)) = [] :=
    List.filter_eq_nil_iff.mpr (fun a ha => by
      simp only [decide_eq_true_eq]
      exact hfresh a ha)
  have hf2 : (buildRecords docId fn (chunk_text text 1000 200 ovLt) 0).filter
      (fun c => decide (c.doc_id = docId)) =
      buildRecords docId fn (chunk_text text 1000 200 ovLt) 0 :=
    List.filter_eq_self.mpr hmatch
  simp only [delete_document, List.find?_append, hfind1, Option.none_or, hfind2]
  rw [hc0fn, if_neg hfn]
  simp only [List.filter_append, hf1, hf2, List.nil_append, List.length_map,
    buildRecords_length docId fn (chunk_text text 1000 200 ovLt) 0]

/-- C10: uploads store and echo the sanitized filename: on a successful upload
the response filename is `sf raw`, every new chunk's metadata filename and the
saved file are `sf raw`, the documents listing reports `sf raw` for the fresh
doc id, deleting the fresh doc id echoes `sf raw` in the DELETE response
(whenever `sf raw` is non-empty, as werkzeug guarantees for allowed names),
and a further upload of a distinct raw name that sanitizes to the same string
is rejected as a duplicate with 400 and no state change. -/
theorem upload_sanitized_filename (sf : List Char → List Char) (s : ServerState)
    (raw : List Char) (primary ocr : Except (List Char) (List (List Char)))
    (docId text : List Char)
    (hallow : ¬ allowed_file raw = false)
    (hnodup : ∀ c ∈ s.chunks, c.filename ≠ sf raw)
    (hex : extract_text_from_pdf primary ocr = .ok text)
    (htext : ¬ pyStrip text = [])
    (hfresh : ∀ c ∈ s.chunks, c.doc_id ≠ docId) :
    (upload_document sf s (some raw) primary ocr docId).1.filenameReported =
        some (sf raw)
    ∧ (upload_document sf s (some raw) primary ocr docId).2.chunks =
        s.chunks ++ buildRecords docId (sf raw) (chunk_text text 1000 200 ovLt) 0
    ∧ (∀ c ∈ (upload_document sf s (some raw) primary ocr docId).2.chunks,
        c ∉ s.chunks → c.filename = sf raw)
    ∧ sf raw ∈ (upload_document sf s (some raw) primary ocr docId).2.files
    ∧ (∀ p ∈ list_documents (upload_document sf s (some raw) primary ocr docId).2,
        p.1 = docId → p.2 = sf raw)
    ∧ (sf raw ≠ [] →
        (delete_document (upload_document sf s (some raw) primary ocr docId).2
            docId).1 =
          .deleted (sf raw) (chunk_text text 1000 200 ovLt).length)
    ∧ ∀ raw2 primary2 ocr2 docId2, raw2 ≠ raw → sf raw2 = sf raw →
        ¬ allowed_file raw2 = false →
        upload_document sf (upload_document sf s (some raw) primary ocr docId).2
            (some raw2) primary2 ocr2 docId2 =
          (.badRequest duplicateMsg,
            (upload_document sf s (some raw) primary ocr docId).2) := by
  have hraw := allowed_file_ne_nil raw hallow
  have hany : s.chunks.any (fun c => decide (c.filename = sf raw)) = false := by
    rw [List.any_eq_false]
    intro c hc
    simp only [decide_eq_true_eq]
    exact hnodup c hc
  have hup := upload_success sf s raw primary ocr docId text hraw hallow hany hex htext
  rw [hup]
  have hnewmem : ∀ c ∈ buildRecords docId (sf raw) (chunk_text text 1000 200 ovLt) 0,
      c.filename = sf raw ∧ c.doc_id = docId := fun c hc =>
    buildRecords_mem docId (sf raw) (chunk_text text 1000 200 ovLt) 0 c hc
  refine ⟨rfl, rfl, ?_, ?_, ?_, ?_, ?_⟩
  · intro c hcmem hcnot
    rcases List.mem_append.mp hcmem with h | h
    · exact absurd h hcnot
    · exact (hnewmem c h).1
  · unfold saveFile
    split
    · assumption
    · exact List.mem_cons_self _ _
  · intro p hp hp1
    obtain ⟨c2, hc2, hdoc2, hfn2⟩ := uniqueDocsAux_mem _ _ p hp
    rcases List.mem_append.mp hc2 with h | h
    · exact absurd (by rw [hdoc2, hp1]) (hfresh c2 h)
    · rw [← hfn2]
      exact (hnewmem c2 h).1
  · intro hsfne
    exact delete_after_upload s docId (sf raw) text hfresh hsfne
      (text_ne_nil_of_strip text htext)
  · intro raw2 primary2 ocr2 docId2 hne hsame hallow2
    apply upload_dup sf _ raw2 primary2 ocr2 docId2
      (allowed_file_ne_nil raw2 hallow2) hallow2
    rw [List.any_eq_true]
    obtain ⟨c3, hc3⟩ := List.exists_mem_of_ne_nil _
      (buildRecords_ne_nil docId (sf raw) (chunk_text text 1000 200 ovLt)
        (chunk_text_ne_nil text (text_ne_nil_of_strip text htext)) 0)
    refine ⟨c3, List.mem_append_right _ hc3, ?_⟩
    rw [hsame]
    simp only [decide_eq_true_eq]
    exact (hnewmem c3 hc3).1

theorem c10_extract :
    extract_text_from_pdf c10Pdf (.error []) =
      .ok (List.replicate 60 'b' ++ ['\n']) := by
  have hp : pagesToText [List.replicate 60 'b'] = List.replicate 60 'b' ++ ['\n'] :=
    pagesToText_single _ (replicate_ne_nil_of_pos 'b' 60 (by norm_num))
  simp only [c10Pdf, extract_text_from_pdf, hp,
    pyStrip_replicate_newline 'b' 60 (by decide) (by norm_num)]
  rw [if_neg (by simp only [List.length_replicate]; norm_num)]

/-- Witness for C10: with a sanitizer sending both x.pdf and y.pdf to a.pdf,
the second upload is rejected as a duplicate and the state is unchanged. -/
theorem upload_sanitized_filename_w :
    upload_document (fun _ => "a.pdf".toList) c10State (some "y.pdf".toList)
        (.ok []) (.ok []) "d2".toList = (.badRequest duplicateMsg, c10State) := by
  have h := upload_sanitized_filename (fun _ => "a.pdf".toList)
    { chunks := [], files := [] } "x.pdf".toList c10Pdf (.error []) "d1".toList
    (List.replicate 60 'b' ++ ['\n'])
    (by decide)
    (by intro c hc; exact absurd hc (List.not_mem_nil c))
    c10_extract
    (by rw [pyStrip_replicate_newline 'b' 60 (by decide) (by norm_num)]
        exact replicate_ne_nil_of_pos 'b' 60 (by norm_num))
    (by intro c hc; exact absurd hc (List.not_mem_nil c))
  exact h.2.2.2.2.2.2 "y.pdf".toList (.ok []) (.ok []) "d2".toList (by decide) rfl
    (by decide)

end ChatbotAppLab
